import Mathlib

/-!
Verification development for the overlay layout engine of the gifstrem
repository (apps/web/src/pages/OverlayPage.tsx).

Numbers are modelled as exact rationals.  The engine calls a handful of
transcendental library functions (Math.sin, Math.cos, Math.sqrt, Math.pow,
Math.atan2, Math.PI) whose values are not rational; they are collected in a
`JsMath` structure and every definition is parametrised by it, so theorems
quantified over the structure hold in particular for the real library
functions.  Number-to-string coercion (used only to build hash seeds) is
modelled the same way.
-/

/-- Canvas size in pixels, from the streamer resolution settings. -/
structure Canvas where
  width : ℚ
  height : ℚ
deriving DecidableEq

/-- An axis-aligned rectangle: safe zones, pockets, density cells. -/
structure Rect where
  x : ℚ
  y : ℚ
  width : ℚ
  height : ℚ
deriving DecidableEq

/-- A square placement rectangle, as used for items: x, y and edge length. -/
structure SRect where
  x : ℚ
  y : ℚ
  size : ℚ
deriving DecidableEq

/-- The transcendental functions of the JS Math library, plus number
rendering, kept abstract. -/
structure JsMath where
  sinM : ℚ → ℚ
  cosM : ℚ → ℚ
  sqrtM : ℚ → ℚ
  powM : ℚ → ℚ → ℚ
  atan2M : ℚ → ℚ → ℚ
  piM : ℚ
  numStr : ℚ → String

/-- A concrete instantiation of the abstract math functions, used to
evaluate the engine on explicit inputs. -/
def zeroMath : JsMath :=
  ⟨fun _ => 0, fun _ => 0, fun _ => 0, fun _ _ => 0, fun _ _ => 0, 0, fun _ => ""⟩

/-- clamp(value, min, max) from the source. -/
def clamp (value lo hi : ℚ) : ℚ := min (max value lo) hi

/-- SAFE_ZONE_PADDING constant (32). -/
def safeZonePadding : ℚ := 32

/-- MAX_OVERLAP_RATIO constant (0.05). -/
def maxOverlapRatio : ℚ := 1/20

/-- padSafeZone: pad a safe zone outward, clipped to the canvas. -/
def padSafeZone (safeZone : Rect) (padding : ℚ) (canvas : Canvas) : Rect :=
  let x := clamp (safeZone.x - padding) 0 canvas.width
  let y := clamp (safeZone.y - padding) 0 canvas.height
  ⟨x, y, min (canvas.width - x) (safeZone.width + padding * 2),
    min (canvas.height - y) (safeZone.height + padding * 2)⟩

/-- intersectRect: axis-aligned intersection, none when the rectangles do
not strictly overlap. -/
def intersectRect (a b : Rect) : Option Rect :=
  let x1 := max a.x b.x
  let y1 := max a.y b.y
  let x2 := min (a.x + a.width) (b.x + b.width)
  let y2 := min (a.y + a.height) (b.y + b.height)
  if x2 ≤ x1 ∨ y2 ≤ y1 then none else some ⟨x1, y1, x2 - x1, y2 - y1⟩

/-- The four remainder rectangles (top, bottom, left, right bands) that
subtractRect builds before dropping degenerate ones. -/
def subtractRemainders (source intersection : Rect) : List Rect :=
  (if source.y < intersection.y then
    [⟨source.x, source.y, source.width, intersection.y - source.y⟩] else []) ++
  (if intersection.y + intersection.height < source.y + source.height then
    [⟨source.x, intersection.y + intersection.height, source.width,
      source.y + source.height - (intersection.y + intersection.height)⟩] else []) ++
  (if source.x < intersection.x then
    [⟨source.x, intersection.y, intersection.x - source.x, intersection.height⟩] else []) ++
  (if intersection.x + intersection.width < source.x + source.width then
    [⟨intersection.x + intersection.width, intersection.y,
      source.x + source.width - (intersection.x + intersection.width),
      intersection.height⟩] else [])

/-- subtractRect before the degenerate-remainder filter. -/
def subtractRaw (source cut : Rect) : List Rect :=
  match intersectRect source cut with
  | none => [source]
  | some i => subtractRemainders source i

/-- subtractRect: source minus cut as up to four rectangles, degenerate
remainders (width or height at most 1) dropped. -/
def subtractRect (source cut : Rect) : List Rect :=
  match intersectRect source cut with
  | none => [source]
  | some i =>
    (subtractRemainders source i).filter
      (fun r => decide (1 < r.width) && decide (1 < r.height))

/-- clampRect: clamp a placement rectangle into the canvas. -/
def clampRect (rect : SRect) (canvas : Canvas) : SRect :=
  ⟨clamp rect.x 0 (canvas.width - rect.size),
   clamp rect.y 0 (canvas.height - rect.size), rect.size⟩

/-- overlapArea of two square placements. -/
def overlapArea (a b : SRect) : ℚ :=
  max 0 (min (a.x + a.size) (b.x + b.size) - max a.x b.x) *
  max 0 (min (a.y + a.size) (b.y + b.size) - max a.y b.y)

/-- overlapRatio: overlap area relative to the smaller of the two areas
(0 when the placements do not overlap). -/
def overlapRatio (a b : SRect) : ℚ :=
  if overlapArea a b = 0 then 0
  else overlapArea a b / min (a.size * a.size) (b.size * b.size)

/-- overlapScore: worst overlap ratio of a candidate against the existing
placements (0 when there are none). -/
def overlapScore (candidate : SRect) (existing : List SRect) : ℚ :=
  match existing with
  | [] => 0
  | h :: t => t.foldl (fun m p => max m (overlapRatio candidate p)) (overlapRatio candidate h)

/-- rectsOverlap for a square placement against a rectangle (strict
inequalities: touching edges do not overlap). -/
def rectsOverlapS (a : SRect) (b : Rect) : Prop :=
  a.x < b.x + b.width ∧ b.x < a.x + a.size ∧ a.y < b.y + b.height ∧ b.y < a.y + a.size

instance (a : SRect) (b : Rect) : Decidable (rectsOverlapS a b) := by
  unfold rectsOverlapS; infer_instance

/-- overlapAreaWithZone: overlap area between a placement and a zone. -/
def overlapAreaWithZone (rect : SRect) (zone : Rect) : ℚ :=
  max 0 (min (rect.x + rect.size) (zone.x + zone.width) - max rect.x zone.x) *
  max 0 (min (rect.y + rect.size) (zone.y + zone.height) - max rect.y zone.y)

/-- totalOverlapArea of a placement against a list of zones. -/
def totalOverlapArea (rect : SRect) (zones : List Rect) : ℚ :=
  zones.foldl (fun s z => s + overlapAreaWithZone rect z) 0

/-- Membership of a point in a rectangle, half-open on the far edges. -/
def inRect (p : ℚ × ℚ) (r : Rect) : Prop :=
  r.x ≤ p.1 ∧ p.1 < r.x + r.width ∧ r.y ≤ p.2 ∧ p.2 < r.y + r.height

instance (p : ℚ × ℚ) (r : Rect) : Decidable (inRect p r) := by
  unfold inRect; infer_instance

/-- Rectangle containment. -/
def containedRect (r s : Rect) : Prop :=
  s.x ≤ r.x ∧ r.x + r.width ≤ s.x + s.width ∧ s.y ≤ r.y ∧ r.y + r.height ≤ s.y + s.height

/-- Containment of one square placement in another. -/
def containedS (a b : SRect) : Prop :=
  b.x ≤ a.x ∧ a.x + a.size ≤ b.x + b.size ∧ b.y ≤ a.y ∧ a.y + a.size ≤ b.y + b.size

instance (a b : SRect) : Decidable (containedS a b) := by
  unfold containedS; infer_instance

/-- A placement rectangle lying fully inside the canvas. -/
def inCanvas (c : Canvas) (r : SRect) : Prop :=
  0 ≤ r.x ∧ 0 ≤ r.y ∧ r.x + r.size ≤ c.width ∧ r.y + r.size ≤ c.height

/-- ToInt32 wrap of an integer, as applied by the JS bitwise-or with 0. -/
def wrap32 (n : ℤ) : ℤ := (n + 2 ^ 31) % 2 ^ 32 - 2 ^ 31

/-- One step of the polynomial rolling hash:
(hash << 5) - hash + charCode, forced back into 32-bit signed range. -/
def hashStep (hash : ℤ) (code : ℕ) : ℤ := wrap32 (wrap32 (hash * 32) - hash + code)

/-- hashString: rolling hash of a seed string to a 32-bit signed integer. -/
def hashString (input : String) : ℤ :=
  input.toList.foldl (fun h ch => hashStep h ch.toNat) 0

/-- randomFromHash: hash the seed, take the fractional part of
abs(sin(hash) * 10000), and map it linearly into the requested range. -/
def randomFromHash (M : JsMath) (seed : String) (lo hi : ℚ) : ℚ :=
  lo + (hi - lo) * Int.fract |M.sinM (hashString seed) * 10000|

/-- Truncation toward zero, as the JS remainder operator uses. -/
def ratTrunc (q : ℚ) : ℤ := if 0 ≤ q then ⌊q⌋ else ⌈q⌉

/-- The JS remainder operator on numbers (sign of the dividend). -/
def jsMod (a b : ℚ) : ℚ := a - b * ratTrunc (a / b)

/-- Math.round: round half toward positive infinity. -/
def jsRound (q : ℚ) : ℤ := ⌊q + 1/2⌋

/-- Coarse occupancy grid over the canvas. -/
structure DensityMap where
  cols : ℕ
  rows : ℕ
  cellWidth : ℚ
  cellHeight : ℚ
  values : List ℚ
deriving DecidableEq

/-- createDensityMap: 4 x 3 grid of zeroed cells. -/
def createDensityMap (canvas : Canvas) : DensityMap :=
  ⟨4, 3, canvas.width / 4, canvas.height / 3, List.replicate 12 0⟩

/-- The (row, col) grid cells a rectangle touches, with both loop bounds
clamped exactly as in the source. -/
def densityCells (map : DensityMap) (x y w h : ℚ) : List (ℤ × ℤ) :=
  let startCol : ℤ := max 0 ⌊x / map.cellWidth⌋
  let endCol : ℤ := min ((map.cols : ℤ) - 1) ⌊(x + w) / map.cellWidth⌋
  let startRow : ℤ := max 0 ⌊y / map.cellHeight⌋
  let endRow : ℤ := min ((map.rows : ℤ) - 1) ⌊(y + h) / map.cellHeight⌋
  ((List.range (endRow + 1 - startRow).toNat).map (fun r => startRow + r)).flatMap
    (fun row => ((List.range (endCol + 1 - startCol).toNat).map (fun c => startCol + c)).map
      (fun col => (row, col)))

/-- sampleDensity: average of the covered cells, clamped to 1. -/
def sampleDensity (map : DensityMap) (rect : Rect) : ℚ :=
  let cells := densityCells map rect.x rect.y rect.width rect.height
  if cells.length = 0 then 0
  else min 1 ((cells.foldl
    (fun t rc => t + map.values.getD (rc.1 * (map.cols : ℤ) + rc.2).toNat 0) 0) / cells.length)

/-- applyDensity: add each cell's covered fraction, clamped to 1. -/
def applyDensity (map : DensityMap) (rect : SRect) : DensityMap :=
  let cells := densityCells map rect.x rect.y rect.size rect.size
  let newValues := cells.foldl (fun vals rc =>
    let idx := (rc.1 * (map.cols : ℤ) + rc.2).toNat
    let cellX1 := (rc.2 : ℚ) * map.cellWidth
    let cellY1 := (rc.1 : ℚ) * map.cellHeight
    let overlapW := max 0 (min (rect.x + rect.size) (cellX1 + map.cellWidth) - max rect.x cellX1)
    let overlapH := max 0 (min (rect.y + rect.size) (cellY1 + map.cellHeight) - max rect.y cellY1)
    let area := overlapW * overlapH
    if area ≤ 0 then vals
    else vals.set idx (min 1 (vals.getD idx 0 + area / (map.cellWidth * map.cellHeight))))
    map.values
  { map with values := newValues }

/-- A usable sub-region of the canvas, with mutable per-pass usage counters. -/
structure Pocket where
  name : String
  rect : Rect
  maxSize : ℚ
  usage : ℕ
  usedArea : ℚ
  priority : ℚ
deriving DecidableEq

instance : Inhabited Pocket := ⟨⟨"", ⟨0, 0, 0, 0⟩, 0, 0, 0, 0⟩⟩

/-- createPocket: maxSize is bounded below by 48 and above by the sides. -/
def createPocket (name : String) (rect : Rect) (maxSize priority : ℚ) : Pocket :=
  ⟨name, rect, max 48 (min maxSize (min rect.width rect.height)), 0, 0, priority⟩

/-- subdividePocket: slice an oversized pocket into a grid of sub-pockets.
The kept-or-dropped test on a slice does not depend on the loop indices
(slice width and height are loop invariants), so the running segment count
of the source equals the enumeration index of the kept list. -/
def subdividePocket (pocket : Pocket) : List Pocket :=
  let rect := pocket.rect
  let aspectRatio := rect.width / max 1 rect.height
  let inverseAspectRatio := rect.height / max 1 rect.width
  let columns : ℕ :=
    if 6/5 < aspectRatio then min 4 (max 1 (jsRound (rect.width / 260)).toNat) else 1
  let rows : ℕ :=
    if 6/5 < inverseAspectRatio then min 4 (max 1 (jsRound (rect.height / 260)).toNat) else 1
  if columns = 1 ∧ rows = 1 then [pocket]
  else
    let sliceWidth := rect.width / columns
    let sliceHeight := rect.height / rows
    let gapX := if 1 < columns then min 22 (sliceWidth * (9/50)) else 0
    let gapY := if 1 < rows then min 22 (sliceHeight * (9/50)) else 0
    let w := sliceWidth - gapX
    let h := sliceHeight - gapY
    let rects : List Rect :=
      if w < 60 ∨ h < 60 then []
      else ((List.range rows).flatMap (fun row => (List.range columns).map (fun col => (row, col)))).map
        (fun rc => ⟨rect.x + rc.2 * sliceWidth + gapX / 2, rect.y + rc.1 * sliceHeight + gapY / 2, w, h⟩)
    let segments := rects.enum.map
      (fun p => createPocket (pocket.name ++ "-" ++ toString p.1) p.2 pocket.maxSize (pocket.priority + 1/20))
    if segments = [] then [pocket] else segments

/-- buildPockets: subtract padded safe zones from the margin-inset base
rectangle, subdivide, and append edge-band pockets. -/
def buildPockets (canvas : Canvas) (safeZones : List Rect) : List Pocket :=
  let margin : ℚ := 28
  let baseRect : Rect :=
    ⟨margin, margin, max 0 (canvas.width - margin * 2), max 0 (canvas.height - margin * 2)⟩
  if baseRect.width ≤ 0 ∨ baseRect.height ≤ 0 then
    [createPocket "fallback" ⟨0, 0, canvas.width, canvas.height⟩
      (max 80 (min canvas.width canvas.height)) 1]
  else
    let paddedZones := safeZones.map (fun z => padSafeZone z safeZonePadding canvas)
    let subtracted := paddedZones.foldl
      (fun rects z => rects.flatMap (fun r => subtractRect r z)) [baseRect]
    let availableRects := if subtracted = [] then [baseRect] else subtracted
    let edgeThickness := max 110 (min canvas.width canvas.height * (9/50))
    let bands : List (String × Rect) := [
      ("edge-top", ⟨baseRect.x, baseRect.y, baseRect.width, edgeThickness⟩),
      ("edge-bottom", ⟨baseRect.x, baseRect.y + baseRect.height - edgeThickness,
        baseRect.width, edgeThickness⟩),
      ("edge-left", ⟨baseRect.x, baseRect.y, edgeThickness, baseRect.height⟩),
      ("edge-right", ⟨baseRect.x + baseRect.width - edgeThickness, baseRect.y,
        edgeThickness, baseRect.height⟩)]
    let edgeBands := ((bands.flatMap (fun band =>
        (paddedZones.foldl (fun rs z => rs.flatMap (fun r => subtractRect r z)) [band.2]).enum.map
          (fun p => (band.1 ++ "-" ++ toString p.1, p.2)))).filter
        (fun b => decide (48 < b.2.width) && decide (48 < b.2.height))).map
      (fun b => createPocket b.1 b.2 (max 80 (min b.2.width b.2.height)) (5/4))
    let pockets := ((availableRects.filter
        (fun r => decide (32 < r.width) && decide (32 < r.height))).enum.map
        (fun p => createPocket ("pocket-" ++ toString p.1) p.2
          (max 70 (min p.2.width p.2.height))
          (min (6/5) (17/20 + p.2.width * p.2.height / max 1 (canvas.width * canvas.height))))).flatMap
        subdividePocket ++ edgeBands
    if pockets = [] then
      [createPocket "fallback" baseRect (max 90 (min baseRect.width baseRect.height)) 1]
    else pockets

/-- selectPocket, returning the index of the chosen pocket in the list
(none when the list is empty).  The source returns the pocket object by
reference and later mutates it in place; the index models that reference. -/
def selectPocketIdx (M : JsMath) (pockets : List Pocket) (index : ℕ) (seed : String)
    (density : DensityMap) (canvas : Canvas) : Option ℕ :=
  if pockets = [] then none
  else
    let expectedUsage := index / max 1 pockets.length
    let canvasCenterX := canvas.width / 2
    let canvasCenterY := canvas.height / 2
    let directionAngles : List ℚ := [M.piM, -(M.piM / 2), 0, M.piM / 2]
    let desiredAngle := directionAngles.getD (index % 4) 0
    let minUsage := pockets.foldl (fun m p => min m p.usage) (pockets.headD default).usage
    let maxUsage := pockets.foldl (fun m p => max m p.usage) (pockets.headD default).usage
    let scored := pockets.enum.map (fun ip =>
      let p := ip.2
      let area := p.rect.width * p.rect.height
      let freeArea := max 1 (area - p.usedArea)
      let usageHeadroom : ℕ := p.usage - expectedUsage
      let usagePenalty := M.powM (max 0 (p.usage : ℚ)) (23/20) * max 70 (p.maxSize * (1/4)) +
        (usageHeadroom : ℚ) * 110
      let saturationPenalty := p.usedArea / max 1 area
      let pocketCenterX := p.rect.x + p.rect.width / 2
      let pocketCenterY := p.rect.y + p.rect.height / 2
      let angle := M.atan2M (pocketCenterY - canvasCenterY) (pocketCenterX - canvasCenterX)
      let angleDiff := |jsMod (angle - desiredAngle + M.piM * 3) (M.piM * 2) - M.piM|
      let directionalBias := M.cosM angleDiff * (9/10)
      let nearestEdge := min (min pocketCenterX (canvas.width - pocketCenterX))
        (min pocketCenterY (canvas.height - pocketCenterY))
      let edgeBias := clamp (1 - nearestEdge / max 1 (min canvas.width canvas.height * (1/2))) 0 1 * (11/20)
      let noise := randomFromHash M (seed ++ "-" ++ p.name ++ "-jitter") (-40) 40
      let densityFactor := 1 - sampleDensity density p.rect
      let usageRatio : ℚ := if maxUsage = 0 then 0 else (p.usage : ℚ) / (maxUsage : ℚ)
      let spreadBias := clamp (6/5 - usageRatio * (4/5)) (11/20) (6/5)
      let diversityBoost : ℚ := if p.usage = minUsage then 27/25 else 1
      let positiveScore := freeArea * p.priority * densityFactor * (9/20) + freeArea * (3/20) +
        freeArea * (directionalBias * (7/10) + edgeBias * (3/5))
      (ip.1, positiveScore * spreadBias * diversityBoost - usagePenalty - saturationPenalty * 80 + noise))
    let sorted := List.insertionSort (fun a b : ℕ × ℚ => b.2 ≤ a.2) scored
    let pool := sorted.take (min 4 sorted.length)
    let pickIndex := (⌊randomFromHash M (seed ++ "-pocket-choice-" ++ toString index) 0 (999/1000) *
      (pool.length : ℚ)⌋).toNat
    some (pool.getD pickIndex (sorted.headD (0, 0))).1

/-- selectPocket: the pocket object the source returns. -/
def selectPocket (M : JsMath) (pockets : List Pocket) (index : ℕ) (seed : String)
    (density : DensityMap) (canvas : Canvas) : Pocket :=
  match selectPocketIdx M pockets index seed density canvas with
  | none => createPocket "fallback" ⟨16, 16, 240, 240⟩ 160 1
  | some i => pockets.getD i default

/-- The termination measure of the shrinking retry loop of
keepOutsideSingleZone. -/
def sizeFuel (s : ℚ) : ℕ := (⌈s⌉).toNat

/-- One pass of keepOutsideSingleZone: either a final rectangle (inl) or
the position to retry from with the shrunken size (inr; the shrink only
happens above the 48 floor, and the proof of that rides along so the
recursion can consume it).  Extracting the loop body keeps the recursive
definition itself small. -/
def koszOnce (rect : SRect) (safeZone : Rect) (canvas : Canvas) :
    SRect ⊕ { p : ℚ × ℚ // 48 < rect.size } :=
  let paddedZone := padSafeZone safeZone safeZonePadding canvas
  let candidate := clampRect rect canvas
  if ¬ rectsOverlapS candidate paddedZone then Sum.inl candidate
  else
    let spaces : List (ℚ × ℚ × ℚ) := [
      (paddedZone.x,
        max 0 (paddedZone.x - candidate.size - safeZonePadding),
        clamp candidate.y safeZonePadding (canvas.height - candidate.size - safeZonePadding)),
      (canvas.width - (paddedZone.x + paddedZone.width),
        min (canvas.width - candidate.size - safeZonePadding)
          (paddedZone.x + paddedZone.width + safeZonePadding),
        clamp candidate.y safeZonePadding (canvas.height - candidate.size - safeZonePadding)),
      (paddedZone.y,
        clamp candidate.x safeZonePadding (canvas.width - candidate.size - safeZonePadding),
        max 0 (paddedZone.y - candidate.size - safeZonePadding)),
      (canvas.height - (paddedZone.y + paddedZone.height),
        clamp candidate.x safeZonePadding (canvas.width - candidate.size - safeZonePadding),
        min (canvas.height - candidate.size - safeZonePadding)
          (paddedZone.y + paddedZone.height + safeZonePadding))]
    let options := ((spaces.filter (fun s => decide (safeZonePadding < s.1))).map (fun s =>
        let sizeLimit := min candidate.size (s.1 - safeZonePadding / 2)
        let size := max 48 (min candidate.size sizeLimit)
        (clampRect ⟨s.2.1, s.2.2, size⟩ canvas, s.1))).filter
      (fun o => decide (48 ≤ o.1.size) && decide (¬ rectsOverlapS o.1 paddedZone))
    match options with
    | best0 :: rest => Sum.inl (rest.foldl (fun p cur => if p.2 < cur.2 then cur else p) best0).1
    | [] =>
      if hsz : candidate.size ≤ 48 then
        let fb := clampRect ⟨safeZonePadding, safeZonePadding, candidate.size⟩ canvas
        Sum.inl (if ¬ rectsOverlapS fb paddedZone then fb
          else clampRect ⟨canvas.width - candidate.size - safeZonePadding, safeZonePadding,
            candidate.size⟩ canvas)
      else
        Sum.inr ⟨(candidate.x, candidate.y), lt_of_not_le hsz⟩

/-- keepOutsideSingleZone: push a placement out of one (already padded)
safe zone, preferring the escape direction with the largest clearance,
shrinking by 0.85 (floored at 48) and retrying when no candidate fits. -/
def keepOutsideSingleZone (rect : SRect) (safeZone : Rect) (canvas : Canvas) : SRect :=
  match koszOnce rect safeZone canvas with
  | Sum.inl r => r
  | Sum.inr pr =>
    keepOutsideSingleZone ⟨pr.1.1, pr.1.2, max 48 (rect.size * (17/20))⟩ safeZone canvas
termination_by sizeFuel rect.size
decreasing_by
  show sizeFuel (max 48 (rect.size * (17/20))) < sizeFuel rect.size
  unfold sizeFuel
  have hgt : 48 < rect.size := pr.2
  have hs : (48 : ℤ) < ⌈rect.size⌉ := by
    have h1 : (48 : ℚ) < (⌈rect.size⌉ : ℚ) := lt_of_lt_of_le hgt (Int.le_ceil rect.size)
    exact_mod_cast h1
  have hle : ⌈max 48 (rect.size * (17/20))⌉ < ⌈rect.size⌉ := by
    rcases max_cases (48 : ℚ) (rect.size * (17/20)) with ⟨heq, _⟩ | ⟨heq, _⟩
    · rw [heq]
      have h48 : ⌈(48 : ℚ)⌉ = (48 : ℤ) := by norm_num
      omega
    · rw [heq]
      have ha : rect.size * (17/20) ≤ rect.size - 1 := by linarith
      have hb : ⌈rect.size * (17/20)⌉ ≤ ⌈rect.size - 1⌉ := Int.ceil_le_ceil ha
      have hd : ⌈rect.size - 1⌉ = ⌈rect.size⌉ - 1 := by
        have he := Int.ceil_sub_int rect.size (1 : ℤ)
        push_cast at he
        exact he
      omega
  omega

/-- Comparison against a best score that starts at positive infinity
(none models Infinity). -/
def ltOptP (q : ℚ) (o : Option ℚ) : Prop :=
  match o with
  | none => True
  | some b => q < b

instance (q : ℚ) (o : Option ℚ) : Decidable (ltOptP q o) := by
  unfold ltOptP; cases o <;> infer_instance

/-- The corner / antipodal-quadrant scan at the end of keepOutsideSafeZones:
first zero-overlap candidate wins, otherwise the lowest total overlap. -/
def cornerScan (paddedZones : List Rect) (canvas : Canvas) (shrunkSize : ℚ) :
    List (ℚ × ℚ) → SRect × Option ℚ → SRect
  | [], best => best.1
  | pos :: rest, best =>
    let opt := clampRect ⟨pos.1, pos.2, shrunkSize⟩ canvas
    let score := totalOverlapArea opt paddedZones
    if score = 0 then opt
    else if ltOptP score best.2 then cornerScan paddedZones canvas shrunkSize rest (opt, some score)
    else cornerScan paddedZones canvas shrunkSize rest best

/-- The code after the retry loop of keepOutsideSafeZones: return the
candidate if it clears all zones, otherwise scan shrunken corner and
antipodal candidates for the least-overlapping position. -/
def keepOutsidePost (candidate : SRect) (paddedZones : List Rect) (canvas : Canvas) : SRect :=
  if ¬ paddedZones.any (fun z => decide (rectsOverlapS candidate z)) then candidate
  else
    let shrunkSize := max 48 (candidate.size * (4/5))
    let edgePad := safeZonePadding
    let farFromZones := paddedZones.map (fun z => (z.x + z.width / 2, z.y + z.height / 2))
    let edgeCandidates : List (ℚ × ℚ) :=
      [(edgePad, edgePad),
       (canvas.width - shrunkSize - edgePad, edgePad),
       (edgePad, canvas.height - shrunkSize - edgePad),
       (canvas.width - shrunkSize - edgePad, canvas.height - shrunkSize - edgePad)] ++
      farFromZones.map (fun ctr =>
        (clamp (if ctr.1 < canvas.width / 2 then canvas.width - shrunkSize - edgePad else edgePad)
          0 canvas.width,
         clamp (if ctr.2 < canvas.height / 2 then canvas.height - shrunkSize - edgePad else edgePad)
          0 canvas.height))
    cornerScan paddedZones canvas shrunkSize edgeCandidates (candidate, none)

/-- The bounded retry loop of keepOutsideSafeZones.  The fuel counts the
remaining iterations of max(6, 4 * zones) and attempt the current index;
a pass that moved nothing jitters the candidate and breaks to the
post-loop code. -/
def keepOutsideLoop (M : JsMath) (origRect : SRect) (paddedZones : List Rect) (canvas : Canvas) :
    ℕ → ℕ → SRect → SRect
  | 0, _, candidate => keepOutsidePost candidate paddedZones canvas
  | fuel + 1, attempt, candidate =>
    let step := paddedZones.foldl (fun (p : SRect × Bool) z =>
      let next := keepOutsideSingleZone p.1 z canvas
      (next, p.2 || decide (next.x ≠ p.1.x ∨ next.y ≠ p.1.y))) (candidate, false)
    if ¬ paddedZones.any (fun z => decide (rectsOverlapS step.1 z)) then step.1
    else if ¬ step.2 then
      let jitterX := randomFromHash M (M.numStr origRect.x ++ "-" ++ toString attempt ++ "-jx")
        (-safeZonePadding) safeZonePadding
      let jitterY := randomFromHash M (M.numStr origRect.y ++ "-" ++ toString attempt ++ "-jy")
        (-safeZonePadding) safeZonePadding
      keepOutsidePost (clampRect ⟨step.1.x + jitterX, step.1.y + jitterY, step.1.size⟩ canvas)
        paddedZones canvas
    else keepOutsideLoop M origRect paddedZones canvas fuel (attempt + 1) step.1

/-- keepOutsideSafeZones: iterate the single-zone push-out over all padded
zones under a bounded retry budget, with jitter and corner fallbacks. -/
def keepOutsideSafeZones (M : JsMath) (rect : SRect) (safeZones : List Rect)
    (canvas : Canvas) : SRect :=
  if safeZones = [] then clampRect rect canvas
  else
    let candidate := clampRect rect canvas
    let paddedZones := safeZones.map (fun z => padSafeZone z safeZonePadding canvas)
    keepOutsideLoop M rect paddedZones canvas (max 6 (paddedZones.length * 4)) 0 candidate

/-- The candidate post-processing shared by the search loops: apply the
safe-zone push-out when safe zones are respected, otherwise keep the
candidate. -/
def zoneAdjust (M : JsMath) (cand0 : SRect) (safeZones : List Rect) (canvas : Canvas)
    (respectSafeZone : Bool) : SRect :=
  if respectSafeZone then keepOutsideSafeZones M cand0 safeZones canvas else cand0

/-- The randomized uniform fallback search of findLowOverlapPlacement
(42 attempts, early exit below 80 percent of the tolerance). -/
def fallbackScan (M : JsMath) (seedCandidate : SRect) (existing : List SRect)
    (safeZones : List Rect) (canvas : Canvas) (seed : String) (respectSafeZone : Bool) :
    List ℕ → SRect × ℚ → SRect
  | [], best => best.1
  | attempt :: rest, best =>
    let offsetSeed := seed ++ "-fallback-" ++ toString attempt
    let cand0 := clampRect ⟨randomFromHash M (offsetSeed ++ "-x") 0 (canvas.width - seedCandidate.size),
      randomFromHash M (offsetSeed ++ "-y") 0 (canvas.height - seedCandidate.size),
      seedCandidate.size⟩ canvas
    let cand := zoneAdjust M cand0 safeZones canvas respectSafeZone
    let score := overlapScore cand existing
    let best2 := if score < best.2 then (cand, score) else best
    if score ≤ maxOverlapRatio * (4/5) then cand
    else fallbackScan M seedCandidate existing safeZones canvas seed respectSafeZone rest best2

/-- findLowOverlapPlacement: keep the seed candidate when already under
tolerance, otherwise run the randomized fallback search. -/
def findLowOverlapPlacement (M : JsMath) (seedCandidate : SRect) (existing : List SRect)
    (safeZones : List Rect) (canvas : Canvas) (seed : String) (respectSafeZone : Bool) : SRect :=
  let bestScore := overlapScore seedCandidate existing
  if bestScore ≤ maxOverlapRatio then seedCandidate
  else fallbackScan M seedCandidate existing safeZones canvas seed respectSafeZone
    (List.range 42) (seedCandidate, bestScore)

/-- The ring of candidate offsets of one shrink round of resolveOverlaps:
four cardinal shifts plus 14 jittered angular steps. -/
def roundOffsets (M : JsMath) (seed : String) (rect : SRect) (shrink : ℕ) (size : ℚ) :
    List (ℚ × ℚ) :=
  let shift := size * (29/50 - (shrink : ℚ) * (1/20))
  [(0, 0), (shift, 0), (-shift, 0), (0, shift), (0, -shift)] ++
  (List.range 14).map (fun i =>
    let angle := ((i : ℚ) / 14) * M.piM * 2 + randomFromHash M
      (seed ++ "-overlap-" ++ M.numStr rect.x ++ "-" ++ M.numStr rect.y ++ "-" ++
        toString shrink ++ "-" ++ toString i) 0 (M.piM / 6)
    (M.cosM angle * shift, M.sinM angle * shift))

/-- The inner candidate loop of one shrink round: returns the improved
running best, or the first candidate at or under tolerance. -/
def tryOffsets (M : JsMath) (rect : SRect) (existing : List SRect) (safeZones : List Rect)
    (canvas : Canvas) (respectSafeZone : Bool) (size : ℚ) :
    List (ℚ × ℚ) → SRect × Option ℚ → (SRect × Option ℚ) ⊕ SRect
  | [], best => Sum.inl best
  | o :: rest, best =>
    let cand0 := clampRect ⟨rect.x + o.1, rect.y + o.2, size⟩ canvas
    let cand := zoneAdjust M cand0 safeZones canvas respectSafeZone
    let score := overlapScore cand existing
    let best2 := if ltOptP score best.2 then (cand, some score) else best
    if score ≤ maxOverlapRatio then Sum.inr cand
    else tryOffsets M rect existing safeZones canvas respectSafeZone size rest best2

/-- The four shrink rounds of resolveOverlaps, falling through to
findLowOverlapPlacement on the best candidate found. -/
def shrinkRounds (M : JsMath) (rect : SRect) (existing : List SRect) (safeZones : List Rect)
    (canvas : Canvas) (respectSafeZone : Bool) (seed : String) :
    List ℕ → ℚ → SRect × Option ℚ → SRect
  | [], _, best => findLowOverlapPlacement M best.1 existing safeZones canvas seed respectSafeZone
  | shrink :: rest, size, best =>
    match tryOffsets M rect existing safeZones canvas respectSafeZone size
      (roundOffsets M seed rect shrink size) best with
    | Sum.inr cand => cand
    | Sum.inl best2 => shrinkRounds M rect existing safeZones canvas respectSafeZone seed
        rest (max 56 (size * (9/10))) best2

/-- resolveOverlaps: bounded search (radial offsets, shrinking, then
randomized fallback) for a placement under the overlap tolerance. -/
def resolveOverlaps (M : JsMath) (rect : SRect) (existing : List SRect) (safeZones : List Rect)
    (canvas : Canvas) (seed : String) (respectSafeZone : Bool) : SRect :=
  if existing = [] then rect
  else shrinkRounds M rect existing safeZones canvas respectSafeZone seed
    [0, 1, 2, 3] rect.size (rect, none)

/-- minStickerSize from the layout driver: max(68, round(0.08 * shortest)). -/
def minStickerSize (canvas : Canvas) : ℚ :=
  max 68 ((jsRound (min canvas.width canvas.height * (2/25)) : ℤ) : ℚ)

/-- maxStickerSize from the layout driver: min(260, round(0.28 * shortest)). -/
def maxStickerSize (canvas : Canvas) : ℚ :=
  min 260 ((jsRound (min canvas.width canvas.height * (7/25)) : ℤ) : ℚ)

/-- availableArea: total pocket area, floored at 1. -/
def availableArea (pockets : List Pocket) : ℚ :=
  max 1 (pockets.foldl (fun total p => total + p.rect.width * p.rect.height) 0)

/-- baseSize of the layout driver, as a function of the pocket list and
the item count (the JS expression submissions.length or-else 1, then
Math.max(1, _), is kept literally). -/
def baseSize (M : JsMath) (canvas : Canvas) (pockets : List Pocket) (count : ℕ) : ℚ :=
  let areaPerItem := availableArea pockets / ((max 1 (if count = 0 then 1 else count) : ℕ) : ℚ)
  let adaptiveBase := M.sqrtM areaPerItem * (39/50)
  clamp (max (min canvas.width canvas.height * (4/25)) adaptiveBase)
    (minStickerSize canvas) (maxStickerSize canvas)

/-- One laid-out item before z-order assignment.  idx is the position in
the input list; it models the identity of the JS item object. -/
structure RawItem where
  id : String
  idx : ℕ
  x : ℚ
  y : ℚ
  size : ℚ
  rotation : ℚ
deriving DecidableEq

/-- The state threaded through the per-item loop of the layout driver:
the pocket arena (mutated in place in the source), the density map and
the placements list. -/
structure LayoutState where
  pockets : List Pocket
  density : DensityMap
  placements : List SRect

/-- The pocket-specific size cap of one item: max(60, min(maxSticker,
pocket.maxSize * 1.05)). -/
def pocketCapacityOf (maxSticker pm : ℚ) : ℚ := max 60 (min maxSticker (pm * (21/20)))

/-- The desired size of one item before placement: the scaled base size
clamped between the per-pocket floor and the pocket capacity. -/
def desiredSizeOf (base scale minSticker pc : ℚ) : ℚ :=
  clamp (base * scale) (max 52 (min minSticker pc * (19/20))) pc

/-- One iteration of the per-item map in the layout driver. -/
def layoutStep (M : JsMath) (canvas : Canvas) (safeZones : List Rect)
    (safeZoneEnabled rotationEnabled : Bool) (base minSticker maxSticker : ℚ)
    (st : LayoutState) (id : String) (index : ℕ) : RawItem × LayoutState :=
  let seedKey := id ++ "-" ++ toString index
  let picked := selectPocketIdx M st.pockets index seedKey st.density canvas
  let pocket := match picked with
    | none => createPocket "fallback" ⟨16, 16, 240, 240⟩ 160 1
    | some i => st.pockets.getD i default
  let pocketCapacity := pocketCapacityOf maxSticker pocket.maxSize
  let scale := randomFromHash M (seedKey ++ "-scale") (22/25) (57/50)
  let desiredSize := desiredSizeOf base scale minSticker pocketCapacity
  let pocketPadding := min (desiredSize * (3/25)) 18
  let offsetXRange := max 1 (pocket.rect.width - desiredSize - pocketPadding * 2)
  let offsetYRange := max 1 (pocket.rect.height - desiredSize - pocketPadding * 2)
  let offsetX := pocket.rect.x + pocketPadding +
    randomFromHash M (seedKey ++ "-offset-x-" ++ toString pocket.usage) 0 offsetXRange
  let offsetY := pocket.rect.y + pocketPadding +
    randomFromHash M (seedKey ++ "-offset-y-" ++ toString pocket.usage) 0 offsetYRange
  let rect0 := clampRect ⟨offsetX, offsetY, desiredSize⟩ canvas
  let rect1 := zoneAdjust M rect0 safeZones canvas safeZoneEnabled
  let rect2 := resolveOverlaps M rect1 st.placements safeZones canvas seedKey safeZoneEnabled
  let pockets2 := match picked with
    | none => st.pockets
    | some i => st.pockets.set i
        { pocket with usage := pocket.usage + 1, usedArea := pocket.usedArea + rect2.size * rect2.size }
  let density2 := applyDensity st.density rect2
  let rotationSign : ℚ :=
    if (1:ℚ)/2 ≤ randomFromHash M (seedKey ++ "-rotation-sign") 0 1 then 1 else -1
  let rotationMagnitude := randomFromHash M (seedKey ++ "-rotation-mag") 3 13
  let flattenChance := randomFromHash M (seedKey ++ "-rotation-flat") 0 1
  let rotation := if rotationEnabled ∧ flattenChance ≤ 9/10 then rotationSign * rotationMagnitude else 0
  (⟨id, index, rect2.x, rect2.y, rect2.size, rotation⟩,
   ⟨pockets2, density2, st.placements ++ [rect2]⟩)

/-- The per-item loop of the layout driver over the ordered item list. -/
def layoutItems (M : JsMath) (canvas : Canvas) (safeZones : List Rect)
    (safeZoneEnabled rotationEnabled : Bool) (base minSticker maxSticker : ℚ) :
    LayoutState → ℕ → List String → List RawItem
  | _, _, [] => []
  | st, index, id :: rest =>
    let r := layoutStep M canvas safeZones safeZoneEnabled rotationEnabled
      base minSticker maxSticker st id index
    r.1 :: layoutItems M canvas safeZones safeZoneEnabled rotationEnabled
      base minSticker maxSticker r.2 (index + 1) rest

/-- One item of the final layout output. -/
structure OutItem where
  id : String
  idx : ℕ
  x : ℚ
  y : ℚ
  size : ℚ
  rotation : ℚ
  zIndex : ℕ
deriving DecidableEq

/-- The sorted copy the z-order pass builds: ascending by final size,
stable (insertion sort models the stable JS Array sort). -/
def sortedBySize (l : List RawItem) : List RawItem :=
  List.insertionSort (fun a b : RawItem => a.size ≤ b.size) l

/-- The z-index the z-order pass assigns to one item: 200 plus its
position in the size-sorted copy (positions model the object identities
the source mutates through). -/
def zIndexOf (l : List RawItem) (it : RawItem) : ℕ :=
  200 + (sortedBySize l).indexOf it

/-- The z-order pass: every item keeps its placement and receives
200 + its rank in the ascending-size order. -/
def assignZ (l : List RawItem) : List OutItem :=
  l.map (fun it => ⟨it.id, it.idx, it.x, it.y, it.size, it.rotation, zIndexOf l it⟩)

/-- The complete layout computation of the overlay page for one data
snapshot: canvas, safe zones (already filtered by the enabled flag in the
page), ordered item ids, and the two feature flags. -/
def layoutRun (M : JsMath) (canvas : Canvas) (safeZones : List Rect) (ids : List String)
    (safeZoneEnabled rotationEnabled : Bool) : List OutItem :=
  let pockets := buildPockets canvas safeZones
  let density := createDensityMap canvas
  let minSticker := minStickerSize canvas
  let maxSticker := maxStickerSize canvas
  let base := baseSize M canvas pockets ids.length
  assignZ (layoutItems M canvas safeZones safeZoneEnabled rotationEnabled
    base minSticker maxSticker ⟨pockets, density, []⟩ 0 ids)

/-- The invariant carried through every placement transformation: size at
least 48 and at most the bound B, and containment in the canvas whenever
B fits the canvas. -/
def sizeOk (c : Canvas) (B : ℚ) (r : SRect) : Prop :=
  48 ≤ r.size ∧ r.size ≤ B ∧ (B ≤ c.width → B ≤ c.height → inCanvas c r)

theorem subtractRect_eq_none {s c : Rect} (h : intersectRect s c = none) :
    subtractRect s c = [s] := by
  unfold subtractRect
  rw [h]

theorem subtractRect_eq_some {s c i : Rect} (h : intersectRect s c = some i) :
    subtractRect s c = (subtractRemainders s i).filter
      (fun r => decide (1 < r.width) && decide (1 < r.height)) := by
  unfold subtractRect
  rw [h]

theorem subtractRaw_eq_none {s c : Rect} (h : intersectRect s c = none) :
    subtractRaw s c = [s] := by
  unfold subtractRaw
  rw [h]

theorem subtractRaw_eq_some {s c i : Rect} (h : intersectRect s c = some i) :
    subtractRaw s c = subtractRemainders s i := by
  unfold subtractRaw
  rw [h]

theorem intersectRect_some_bounds {a b i : Rect} (h : intersectRect a b = some i) :
    i.x = max a.x b.x ∧ i.y = max a.y b.y ∧
    i.x + i.width = min (a.x + a.width) (b.x + b.width) ∧
    i.y + i.height = min (a.y + a.height) (b.y + b.height) ∧
    max a.x b.x < min (a.x + a.width) (b.x + b.width) ∧
    max a.y b.y < min (a.y + a.height) (b.y + b.height) := by
  simp only [intersectRect] at h
  split at h
  · exact absurd h (by simp)
  · rename_i hc
    push_neg at hc
    cases h
    exact ⟨rfl, rfl, by ring, by ring, hc.1, hc.2⟩

theorem intersectRect_none_of {a b : Rect}
    (h : min (a.x + a.width) (b.x + b.width) ≤ max a.x b.x ∨
      min (a.y + a.height) (b.y + b.height) ≤ max a.y b.y) :
    intersectRect a b = none := by
  simp only [intersectRect]
  rw [if_pos h]

theorem mem_subtractRemainders {s i r : Rect} (h : r ∈ subtractRemainders s i) :
    (s.y < i.y ∧ r = ⟨s.x, s.y, s.width, i.y - s.y⟩) ∨
    (i.y + i.height < s.y + s.height ∧
      r = ⟨s.x, i.y + i.height, s.width, s.y + s.height - (i.y + i.height)⟩) ∨
    (s.x < i.x ∧ r = ⟨s.x, i.y, i.x - s.x, i.height⟩) ∨
    (i.x + i.width < s.x + s.width ∧
      r = ⟨i.x + i.width, i.y, s.x + s.width - (i.x + i.width), i.height⟩) := by
  simp only [subtractRemainders, List.mem_append] at h
  rcases h with ((h | h) | h) | h
  all_goals split at h
  all_goals simp only [List.mem_singleton, List.not_mem_nil] at h
  all_goals tauto

theorem subtractRemainders_length (s i : Rect) : (subtractRemainders s i).length ≤ 4 := by
  unfold subtractRemainders
  split_ifs <;> simp

theorem subtractRect_mem_spec {s c r : Rect} (h : r ∈ subtractRect s c) :
    containedRect r s ∧ intersectRect r c = none := by
  rcases hI : intersectRect s c with _ | i
  · rw [subtractRect_eq_none hI] at h
    simp only [List.mem_singleton] at h
    subst h
    exact ⟨⟨le_refl _, le_refl _, le_refl _, le_refl _⟩, hI⟩
  · rw [subtractRect_eq_some hI] at h
    have hmem := (List.mem_filter.mp h).1
    obtain ⟨hx, hy, hxw, hyw, hsx, hsy⟩ := intersectRect_some_bounds hI
    have hix1 : s.x ≤ i.x := by rw [hx]; exact le_max_left _ _
    have hiy1 : s.y ≤ i.y := by rw [hy]; exact le_max_left _ _
    have hiw1 : i.x + i.width ≤ s.x + s.width := by rw [hxw]; exact min_le_left _ _
    have hih1 : i.y + i.height ≤ s.y + s.height := by rw [hyw]; exact min_le_left _ _
    have hWpos : i.x < i.x + i.width := by rw [← hx, ← hxw] at hsx; exact hsx
    have hHpos : i.y < i.y + i.height := by rw [← hy, ← hyw] at hsy; exact hsy
    rcases mem_subtractRemainders hmem with ⟨hco, rfl⟩ | ⟨hco, rfl⟩ | ⟨hco, rfl⟩ | ⟨hco, rfl⟩
    · refine ⟨⟨by dsimp only; linarith, by dsimp only; linarith, by dsimp only; linarith,
        by dsimp only; linarith⟩, intersectRect_none_of (Or.inr ?_)⟩
      dsimp only
      calc min (s.y + (i.y - s.y)) (c.y + c.height) ≤ s.y + (i.y - s.y) := min_le_left _ _
        _ = i.y := by ring
        _ = max s.y c.y := hy
    · refine ⟨⟨by dsimp only; linarith, by dsimp only; linarith, by dsimp only; linarith,
        by dsimp only; linarith⟩, intersectRect_none_of (Or.inr ?_)⟩
      dsimp only
      calc min (i.y + i.height + (s.y + s.height - (i.y + i.height))) (c.y + c.height)
          = min (s.y + s.height) (c.y + c.height) := by ring_nf
        _ = i.y + i.height := hyw.symm
        _ ≤ max (i.y + i.height) c.y := le_max_left _ _
    · refine ⟨⟨by dsimp only; linarith, by dsimp only; linarith, by dsimp only; linarith,
        by dsimp only; linarith⟩, intersectRect_none_of (Or.inl ?_)⟩
      dsimp only
      calc min (s.x + (i.x - s.x)) (c.x + c.width) ≤ s.x + (i.x - s.x) := min_le_left _ _
        _ = i.x := by ring
        _ = max s.x c.x := hx
    · refine ⟨⟨by dsimp only; linarith, by dsimp only; linarith, by dsimp only; linarith,
        by dsimp only; linarith⟩, intersectRect_none_of (Or.inl ?_)⟩
      dsimp only
      calc min (i.x + i.width + (s.x + s.width - (i.x + i.width))) (c.x + c.width)
          = min (s.x + s.width) (c.x + c.width) := by ring_nf
        _ = i.x + i.width := hxw.symm
        _ ≤ max (i.x + i.width) c.x := le_max_left _ _

theorem subtractRaw_covers (s c : Rect) (p : ℚ × ℚ) (hs : inRect p s) (hc : ¬ inRect p c) :
    ∃ r ∈ subtractRaw s c, inRect p r := by
  rcases hI : intersectRect s c with _ | i
  · exact ⟨s, by rw [subtractRaw_eq_none hI]; exact List.mem_singleton_self _, hs⟩
  · rw [subtractRaw_eq_some hI]
    obtain ⟨hx, hy, hxw, hyw, hsx, hsy⟩ := intersectRect_some_bounds hI
    obtain ⟨hp1, hp2, hp3, hp4⟩ := hs
    unfold inRect at hc
    push_neg at hc
    have hix1 : s.x ≤ i.x := by rw [hx]; exact le_max_left _ _
    have hix2 : c.x ≤ i.x := by rw [hx]; exact le_max_right _ _
    have hiy1 : s.y ≤ i.y := by rw [hy]; exact le_max_left _ _
    have hiy2 : c.y ≤ i.y := by rw [hy]; exact le_max_right _ _
    have hiw1 : i.x + i.width ≤ s.x + s.width := by rw [hxw]; exact min_le_left _ _
    have hiw2 : i.x + i.width ≤ c.x + c.width := by rw [hxw]; exact min_le_right _ _
    have hih1 : i.y + i.height ≤ s.y + s.height := by rw [hyw]; exact min_le_left _ _
    have hih2 : i.y + i.height ≤ c.y + c.height := by rw [hyw]; exact min_le_right _ _
    by_cases h1 : p.2 < i.y
    · have htop : s.y < i.y := lt_of_le_of_lt hp3 h1
      refine ⟨⟨s.x, s.y, s.width, i.y - s.y⟩, ?_, hp1, hp2, hp3, by dsimp only; linarith⟩
      unfold subtractRemainders
      rw [if_pos htop]
      simp only [List.mem_append, List.mem_singleton]
      tauto
    · push_neg at h1
      by_cases h2 : i.y + i.height ≤ p.2
      · have hbot : i.y + i.height < s.y + s.height := lt_of_le_of_lt h2 hp4
        refine ⟨⟨s.x, i.y + i.height, s.width, s.y + s.height - (i.y + i.height)⟩, ?_,
          hp1, hp2, h2, by dsimp only; linarith⟩
        unfold subtractRemainders
        rw [if_pos hbot]
        simp only [List.mem_append, List.mem_singleton]
        tauto
      · push_neg at h2
        by_cases h3 : p.1 < i.x
        · have hleft : s.x < i.x := lt_of_le_of_lt hp1 h3
          refine ⟨⟨s.x, i.y, i.x - s.x, i.height⟩, ?_, hp1, by dsimp only; linarith, h1,
            by dsimp only; linarith⟩
          unfold subtractRemainders
          rw [if_pos hleft]
          simp only [List.mem_append, List.mem_singleton]
          tauto
        · push_neg at h3
          have h4 : i.x + i.width ≤ p.1 := by
            by_contra h5
            push_neg at h5
            have := hc (by linarith) (by linarith) (by linarith)
            linarith
          have hright : i.x + i.width < s.x + s.width := lt_of_le_of_lt h4 hp2
          refine ⟨⟨i.x + i.width, i.y, s.x + s.width - (i.x + i.width), i.height⟩, ?_,
            h4, by dsimp only; linarith, h1, by dsimp only; linarith⟩
          unfold subtractRemainders
          rw [if_pos hright]
          simp only [List.mem_append, List.mem_singleton]
          tauto

/-- Claim C6: subtractRect returns at most four rectangles, each contained
in the source and disjoint from the cut; when the rectangles do not
overlap (strictly) the result is exactly the source; the raw remainders
cover source minus cut, and the final list filters out remainders of
degenerate (at most one pixel) width or height. -/
theorem C6_subtract_spec (s c : Rect) :
    (subtractRect s c).length ≤ 4 ∧
    (∀ r ∈ subtractRect s c, containedRect r s ∧ intersectRect r c = none) ∧
    (intersectRect s c = none → subtractRect s c = [s]) ∧
    (∀ p : ℚ × ℚ, inRect p s → ¬ inRect p c → ∃ r ∈ subtractRaw s c, inRect p r) ∧
    (∀ i, intersectRect s c = some i → subtractRect s c = (subtractRaw s c).filter
      (fun r => decide (1 < r.width) && decide (1 < r.height))) := by
  refine ⟨?_, fun r hr => subtractRect_mem_spec hr, fun h => subtractRect_eq_none h,
    fun p hps hpc => subtractRaw_covers s c p hps hpc, fun i hi => ?_⟩
  · rcases hI : intersectRect s c with _ | i
    · rw [subtractRect_eq_none hI]; simp
    · rw [subtractRect_eq_some hI]
      exact le_trans (List.length_filter_le _ _) (subtractRemainders_length s i)
  · rw [subtractRect_eq_some hi, subtractRaw_eq_some hi]

unseal Rat.add Rat.mul Rat.inv Rat.sub in
theorem C6_subtract_spec_witness :
    subtractRect ⟨0, 0, 4, 4⟩ ⟨4, 0, 4, 4⟩ = [⟨0, 0, 4, 4⟩] ∧
    (∃ r ∈ subtractRaw ⟨0, 0, 10, 10⟩ ⟨2, 2, 4, 4⟩, inRect (1, 1) r) := by
  constructor
  · exact (C6_subtract_spec _ _).2.2.1 (by decide)
  · exact (C6_subtract_spec _ _).2.2.2.1 (1, 1) (by decide) (by decide)

theorem overlapArea_comm (a b : SRect) : overlapArea a b = overlapArea b a := by
  unfold overlapArea
  rw [min_comm (a.x + a.size), max_comm a.x, min_comm (a.y + a.size), max_comm a.y]

/-- Claim C9: overlapRatio equals overlapArea divided by the minimum of
the two squared sizes, it is symmetric in its arguments, and containment
of one square in the other yields ratio 1. -/
theorem C9_overlapRatio_spec (a b : SRect) :
    overlapRatio a b = overlapArea a b / min (a.size * a.size) (b.size * b.size) ∧
    overlapRatio a b = overlapRatio b a ∧
    (0 < a.size → containedS a b → overlapRatio a b = 1) := by
  refine ⟨?_, ?_, ?_⟩
  · unfold overlapRatio
    split
    · rename_i h; rw [h, zero_div]
    · rfl
  · unfold overlapRatio
    rw [overlapArea_comm, min_comm (a.size * a.size)]
  · rintro hpos ⟨h1, h2, h3, h4⟩
    have hw : min (a.x + a.size) (b.x + b.size) = a.x + a.size := min_eq_left h2
    have hx : max a.x b.x = a.x := max_eq_left h1
    have hwy : min (a.y + a.size) (b.y + b.size) = a.y + a.size := min_eq_left h4
    have hy : max a.y b.y = a.y := max_eq_left h3
    have hA : overlapArea a b = a.size * a.size := by
      unfold overlapArea
      rw [hw, hx, hwy, hy]
      have e1 : a.x + a.size - a.x = a.size := by ring
      have e2 : a.y + a.size - a.y = a.size := by ring
      rw [e1, e2, max_eq_right hpos.le]
    have hab : a.size ≤ b.size := by linarith
    have hmin : min (a.size * a.size) (b.size * b.size) = a.size * a.size :=
      min_eq_left (mul_le_mul hab hab hpos.le (by linarith))
    unfold overlapRatio
    rw [hA, hmin, if_neg (mul_pos hpos hpos).ne']
    exact div_self (mul_pos hpos hpos).ne'

unseal Rat.add Rat.mul Rat.inv Rat.sub in
theorem C9_overlapRatio_spec_witness :
    overlapRatio ⟨1, 1, 2⟩ ⟨0, 0, 4⟩ = 1 ∧
    overlapRatio ⟨1, 1, 2⟩ ⟨0, 0, 4⟩ = overlapRatio ⟨0, 0, 4⟩ ⟨1, 1, 2⟩ := by
  refine ⟨(C9_overlapRatio_spec ⟨1, 1, 2⟩ ⟨0, 0, 4⟩).2.2 (by decide) (by decide),
    (C9_overlapRatio_spec ⟨1, 1, 2⟩ ⟨0, 0, 4⟩).2.1⟩

/-- Claim C7: buildPockets always returns a non-empty pocket list, and
selectPocket on an empty pocket list returns the synthetic fallback
pocket, so pocket selection never has zero candidates. -/
theorem C7_never_zero_candidates (canvas : Canvas) (zones : List Rect) (M : JsMath)
    (index : ℕ) (seed : String) (density : DensityMap) :
    0 < (buildPockets canvas zones).length ∧
    selectPocket M [] index seed density canvas =
      createPocket "fallback" ⟨16, 16, 240, 240⟩ 160 1 := by
  constructor
  · simp only [buildPockets]
    split
    · simp
    · split <;>
      · split
        · simp
        · rename_i h
          exact List.length_pos.mpr h
  · rfl

/-- Claim C5 (amended): the full-canvas single-pocket fallback fires
exactly when the working area degenerates, i.e. when a canvas side is at
most 56 pixels; a safe zone covering the canvas does not trigger it. -/
theorem C5_amended_fallback (canvas : Canvas) (zones : List Rect)
    (h : canvas.width ≤ 56 ∨ canvas.height ≤ 56) :
    buildPockets canvas zones =
      [createPocket "fallback" ⟨0, 0, canvas.width, canvas.height⟩
        (max 80 (min canvas.width canvas.height)) 1] := by
  simp only [buildPockets]
  rw [if_pos]
  rcases h with h | h
  · exact Or.inl (by rw [max_le_iff]; constructor <;> linarith)
  · exact Or.inr (by rw [max_le_iff]; constructor <;> linarith)

set_option maxRecDepth 10000 in
unseal Rat.add Rat.mul Rat.inv Rat.sub in
/-- Counterexample to C5 as stated: a safe zone covering the whole
1280 by 720 canvas yields four pockets, none spanning the canvas, not a
single full-canvas fallback pocket. -/
theorem C5_counterexample_full_cover :
    (buildPockets ⟨1280, 720⟩ [⟨0, 0, 1280, 720⟩]).length = 4 ∧
    (∀ p ∈ buildPockets ⟨1280, 720⟩ [⟨0, 0, 1280, 720⟩],
      p.rect ≠ ⟨0, 0, 1280, 720⟩) ∧ (4 : ℕ) ≠ 1 := by decide

unseal Rat.add Rat.mul Rat.inv Rat.sub in
theorem C5_amended_fallback_witness :
    buildPockets ⟨50, 50⟩ [] =
      [createPocket "fallback" ⟨0, 0, 50, 50⟩ (max 80 (min 50 50)) 1] :=
  C5_amended_fallback ⟨50, 50⟩ [] (Or.inl (by decide))

/-- Claim C8: with canvas and pockets fixed and a monotone square root
oracle, the computed base size is non-increasing in the item count. -/
theorem C8_baseSize_monotone (M : JsMath) (canvas : Canvas) (pockets : List Pocket)
    (hmono : ∀ a b : ℚ, a ≤ b → M.sqrtM a ≤ M.sqrtM b) (m n : ℕ) (hmn : n ≤ m) :
    baseSize M canvas pockets m ≤ baseSize M canvas pockets n := by
  unfold baseSize clamp
  have hA : (0:ℚ) ≤ availableArea pockets := le_trans zero_le_one (le_max_left _ _)
  have hdiv : ((max 1 (if n = 0 then 1 else n) : ℕ) : ℚ) ≤
      ((max 1 (if m = 0 then 1 else m) : ℕ) : ℚ) := by
    have : (max 1 (if n = 0 then 1 else n)) ≤ (max 1 (if m = 0 then 1 else m)) := by
      split_ifs <;> omega
    exact_mod_cast this
  have hpos : (0:ℚ) < ((max 1 (if n = 0 then 1 else n) : ℕ) : ℚ) := by
    have : 0 < (max 1 (if n = 0 then 1 else n)) := by omega
    exact_mod_cast this
  have harea : availableArea pockets / ((max 1 (if m = 0 then 1 else m) : ℕ) : ℚ) ≤
      availableArea pockets / ((max 1 (if n = 0 then 1 else n) : ℕ) : ℚ) :=
    div_le_div_of_nonneg_left hA hpos hdiv
  have hadapt : M.sqrtM (availableArea pockets / ((max 1 (if m = 0 then 1 else m) : ℕ) : ℚ)) * (39/50) ≤
      M.sqrtM (availableArea pockets / ((max 1 (if n = 0 then 1 else n) : ℕ) : ℚ)) * (39/50) := by
    have := hmono _ _ harea
    linarith
  exact min_le_min (max_le_max (max_le_max (le_refl _) hadapt) (le_refl _)) (le_refl _)

theorem C8_baseSize_monotone_witness :
    baseSize zeroMath ⟨1280, 720⟩ [] 2 ≤ baseSize zeroMath ⟨1280, 720⟩ [] 1 :=
  C8_baseSize_monotone zeroMath ⟨1280, 720⟩ [] (fun a b _ => le_refl 0) 2 1 (by decide)

/-- Claim C1: the layout is a pure function of its inputs - identical
canvas, safe zones and item list give identical placement lists. -/
theorem C1_determinism (M : JsMath) (canvas : Canvas) (zones : List Rect)
    (ids1 ids2 : List String) (se re : Bool) (h : ids1 = ids2) :
    layoutRun M canvas zones ids1 se re = layoutRun M canvas zones ids2 se re := by
  rw [h]

theorem C1_determinism_witness :
    layoutRun zeroMath ⟨1280, 720⟩ [] ["a", "b"] true true =
      layoutRun zeroMath ⟨1280, 720⟩ [] ["a", "b"] true true :=
  C1_determinism zeroMath ⟨1280, 720⟩ [] ["a", "b"] ["a", "b"] true true rfl

theorem clampRect_size (r : SRect) (c : Canvas) : (clampRect r c).size = r.size := rfl

theorem clampRect_inCanvas {r : SRect} {c : Canvas} (hw : r.size ≤ c.width)
    (hh : r.size ≤ c.height) : inCanvas c (clampRect r c) := by
  unfold inCanvas clampRect clamp
  dsimp only
  refine ⟨?_, ?_, ?_, ?_⟩
  · exact le_min (le_max_right _ _) (by linarith)
  · exact le_min (le_max_right _ _) (by linarith)
  · have h1 : min (max r.x 0) (c.width - r.size) ≤ c.width - r.size := min_le_right _ _
    linarith
  · have h1 : min (max r.y 0) (c.height - r.size) ≤ c.height - r.size := min_le_right _ _
    linarith

theorem foldl_pick_mem (b : SRect × ℚ) (l : List (SRect × ℚ)) :
    l.foldl (fun p cur => if p.2 < cur.2 then cur else p) b ∈ b :: l := by
  induction l generalizing b with
  | nil => exact List.mem_singleton_self b
  | cons h t ih =>
    have hm := ih (if b.2 < h.2 then h else b)
    simp only [List.foldl_cons]
    rcases List.mem_cons.mp hm with heq | hmem
    · rw [heq]
      split
      · exact List.mem_cons_of_mem _ (List.mem_cons_self _ _)
      · exact List.mem_cons_self _ _
    · exact List.mem_cons_of_mem _ (List.mem_cons_of_mem _ hmem)

theorem koszOnce_inl_spec (rect : SRect) (zone : Rect) (canvas : Canvas) (h48 : 48 ≤ rect.size) :
    ∀ r, koszOnce rect zone canvas = Sum.inl r →
      ∃ x y s, 48 ≤ s ∧ s ≤ rect.size ∧ r = clampRect ⟨x, y, s⟩ canvas := by
  simp only [koszOnce]
  split
  · intro r h
    cases h
    exact ⟨rect.x, rect.y, rect.size, h48, le_refl _, rfl⟩
  · split
    · rename_i best0 rest hopt
      intro r h
      cases h
      have hmem : rest.foldl (fun p cur => if p.2 < cur.2 then cur else p) best0 ∈
          best0 :: rest := foldl_pick_mem best0 rest
      rw [← hopt] at hmem
      have hmem2 := (List.mem_filter.mp hmem).1
      obtain ⟨sp, hsp, heq⟩ := List.mem_map.mp hmem2
      refine ⟨sp.2.1, sp.2.2,
        48 ⊔ ((clampRect rect canvas).size ⊓
          ((clampRect rect canvas).size ⊓ (sp.1 - safeZonePadding / 2))),
        le_max_left _ _, ?_, ?_⟩
      · exact max_le h48 (le_trans (min_le_left _ _) (le_of_eq rfl))
      · exact (congrArg Prod.fst heq).symm
    · split
      · rename_i hsz
        intro r h
        cases h
        split
        · exact ⟨safeZonePadding, safeZonePadding, rect.size, h48, le_refl _, rfl⟩
        · exact ⟨canvas.width - rect.size - safeZonePadding, safeZonePadding, rect.size,
            h48, le_refl _, rfl⟩
      · intro r h
        exact absurd h (by simp)

set_option maxHeartbeats 4000000 in
theorem kosz_eq_inl {rect : SRect} {zone : Rect} {canvas : Canvas} {r : SRect}
    (h : koszOnce rect zone canvas = Sum.inl r) :
    keepOutsideSingleZone rect zone canvas = r := by
  rw [keepOutsideSingleZone, h]

theorem kosz_eq_inr {rect : SRect} {zone : Rect} {canvas : Canvas}
    {pr : { p : ℚ × ℚ // 48 < rect.size }}
    (h : koszOnce rect zone canvas = Sum.inr pr) :
    keepOutsideSingleZone rect zone canvas =
      keepOutsideSingleZone ⟨pr.1.1, pr.1.2, max 48 (rect.size * (17/20))⟩ zone canvas := by
  rw [keepOutsideSingleZone, h]

theorem kosz_shape : ∀ (rect : SRect) (zone : Rect) (canvas : Canvas), 48 ≤ rect.size →
    ∃ x y s, 48 ≤ s ∧ s ≤ rect.size ∧
      keepOutsideSingleZone rect zone canvas = clampRect ⟨x, y, s⟩ canvas := by
  intro rect zone canvas
  induction rect, zone, canvas using keepOutsideSingleZone.induct with
  | case1 rect zone canvas r hstep =>
    intro h48
    obtain ⟨x, y, s, hs1, hs2, hr⟩ := koszOnce_inl_spec rect zone canvas h48 r hstep
    exact ⟨x, y, s, hs1, hs2, by rw [kosz_eq_inl hstep]; exact hr⟩
  | case2 rect zone canvas pr hstep ih =>
    intro h48
    have hgt : (48:ℚ) < rect.size := pr.2
    have h48b : (48:ℚ) ≤ max 48 (rect.size * (17/20)) := le_max_left _ _
    obtain ⟨x, y, s, hs1, hs2, hr⟩ := ih h48b
    refine ⟨x, y, s, hs1, le_trans hs2 ?_, ?_⟩
    · exact max_le (le_of_lt hgt) (by linarith)
    · rw [kosz_eq_inr hstep]
      exact hr

set_option maxRecDepth 40000 in
unseal Rat.add Rat.mul Rat.inv Rat.sub in
theorem sizeOk_clampRect {c : Canvas} {B x y s : ℚ} (h1 : 48 ≤ s) (h2 : s ≤ B) :
    sizeOk c B (clampRect ⟨x, y, s⟩ c) :=
  ⟨h1, h2, fun hw hh => clampRect_inCanvas (le_trans h2 hw) (le_trans h2 hh)⟩

theorem kosz_sizeOk {rect : SRect} {zone : Rect} {canvas : Canvas} {B : ℚ}
    (h48 : 48 ≤ rect.size) (hB : rect.size ≤ B) :
    sizeOk canvas B (keepOutsideSingleZone rect zone canvas) := by
  obtain ⟨x, y, s, hs1, hs2, heq⟩ := kosz_shape rect zone canvas h48
  rw [heq]
  exact sizeOk_clampRect hs1 (le_trans hs2 hB)

theorem cornerScan_sizeOk {zones : List Rect} {canvas : Canvas} {B shrunk : ℚ}
    (h1 : 48 ≤ shrunk) (h2 : shrunk ≤ B) :
    ∀ (l : List (ℚ × ℚ)) (best : SRect × Option ℚ), sizeOk canvas B best.1 →
      sizeOk canvas B (cornerScan zones canvas shrunk l best) := by
  intro l
  induction l with
  | nil => intro best hb; exact hb
  | cons pos rest ih =>
    intro best hb
    rw [cornerScan]
    split
    · exact sizeOk_clampRect h1 h2
    · split
      · exact ih _ (sizeOk_clampRect h1 h2)
      · exact ih _ hb

theorem keepOutsidePost_sizeOk {candidate : SRect} {zones : List Rect} {canvas : Canvas} {B : ℚ}
    (h : sizeOk canvas B candidate) :
    sizeOk canvas B (keepOutsidePost candidate zones canvas) := by
  obtain ⟨h48, hB, hin⟩ := h
  unfold keepOutsidePost
  split
  · exact ⟨h48, hB, hin⟩
  · refine cornerScan_sizeOk (le_max_left _ _) ?_ _ _ ⟨h48, hB, hin⟩
    refine max_le (le_trans h48 hB) ?_
    have hpos : (0:ℚ) ≤ candidate.size := le_trans (by norm_num) h48
    linarith

theorem keepOutsideLoop_sizeOk {M : JsMath} {origRect : SRect} {zones : List Rect}
    {canvas : Canvas} {B : ℚ} :
    ∀ (fuel attempt : ℕ) (candidate : SRect), sizeOk canvas B candidate →
      sizeOk canvas B (keepOutsideLoop M origRect zones canvas fuel attempt candidate) := by
  intro fuel
  induction fuel with
  | zero => intro attempt candidate h; exact keepOutsidePost_sizeOk h
  | succ n ih =>
    intro attempt candidate h
    rw [keepOutsideLoop]
    have hstep : ∀ (zs : List Rect) (p : SRect × Bool), sizeOk canvas B p.1 →
        sizeOk canvas B (zs.foldl (fun (p : SRect × Bool) z =>
          let next := keepOutsideSingleZone p.1 z canvas
          (next, p.2 || decide (next.x ≠ p.1.x ∨ next.y ≠ p.1.y))) p).1 := by
      intro zs
      induction zs with
      | nil => intro p hp; exact hp
      | cons z rest ihz =>
        intro p hp
        exact ihz _ (kosz_sizeOk hp.1 hp.2.1)
    split
    · exact (hstep zones (candidate, false) h)
    · split
      · refine keepOutsidePost_sizeOk ?_
        have hs := hstep zones (candidate, false) h
        exact sizeOk_clampRect hs.1 hs.2.1
      · exact ih _ _ (hstep zones (candidate, false) h)

theorem keepOutsideSafeZones_sizeOk {M : JsMath} {rect : SRect} {zones : List Rect}
    {canvas : Canvas} {B : ℚ} (h48 : 48 ≤ rect.size) (hB : rect.size ≤ B) :
    sizeOk canvas B (keepOutsideSafeZones M rect zones canvas) := by
  unfold keepOutsideSafeZones
  split
  · exact sizeOk_clampRect h48 hB
  · exact keepOutsideLoop_sizeOk _ _ _ (sizeOk_clampRect h48 hB)

theorem zoneAdjust_sizeOk {M : JsMath} {cand0 : SRect} {zones : List Rect} {canvas : Canvas}
    {se : Bool} {B : ℚ} (h48 : 48 ≤ cand0.size) (hB : cand0.size ≤ B)
    (h : sizeOk canvas B cand0) :
    sizeOk canvas B (zoneAdjust M cand0 zones canvas se) := by
  unfold zoneAdjust
  split
  · exact keepOutsideSafeZones_sizeOk h48 hB
  · exact h

theorem fallbackScan_sizeOk {M : JsMath} {seedCandidate : SRect} {existing : List SRect}
    {zones : List Rect} {canvas : Canvas} {seed : String} {se : Bool} {B : ℚ}
    (h48 : 48 ≤ seedCandidate.size) (hB : seedCandidate.size ≤ B) :
    ∀ (l : List ℕ) (best : SRect × ℚ), sizeOk canvas B best.1 →
      sizeOk canvas B (fallbackScan M seedCandidate existing zones canvas seed se l best) := by
  intro l
  induction l with
  | nil => intro best hb; exact hb
  | cons attempt rest ih =>
    intro best hb
    rw [fallbackScan]
    have hcand : ∀ x y : ℚ, sizeOk canvas B (zoneAdjust M
        (clampRect ⟨x, y, seedCandidate.size⟩ canvas) zones canvas se) := fun x y =>
      zoneAdjust_sizeOk h48 hB (sizeOk_clampRect h48 hB)
    split
    · exact hcand _ _
    · split
      · exact ih _ (hcand _ _)
      · exact ih _ hb

theorem findLowOverlapPlacement_sizeOk {M : JsMath} {seedCandidate : SRect}
    {existing : List SRect} {zones : List Rect} {canvas : Canvas} {seed : String} {se : Bool}
    {B : ℚ} (h : sizeOk canvas B seedCandidate) :
    sizeOk canvas B (findLowOverlapPlacement M seedCandidate existing zones canvas seed se) := by
  simp only [findLowOverlapPlacement]
  split
  · exact h
  · exact fallbackScan_sizeOk h.1 h.2.1 _ _ h

theorem tryOffsets_sizeOk {M : JsMath} {rect : SRect} {existing : List SRect}
    {zones : List Rect} {canvas : Canvas} {se : Bool} {B size : ℚ}
    (h48 : 48 ≤ size) (hB : size ≤ B) :
    ∀ (l : List (ℚ × ℚ)) (best : SRect × Option ℚ), sizeOk canvas B best.1 →
      (∀ b2, tryOffsets M rect existing zones canvas se size l best = Sum.inl b2 →
        sizeOk canvas B b2.1) ∧
      (∀ cand, tryOffsets M rect existing zones canvas se size l best = Sum.inr cand →
        sizeOk canvas B cand) := by
  intro l
  induction l with
  | nil =>
    intro best hb
    constructor
    · intro b2 h2
      rw [tryOffsets] at h2
      cases h2
      exact hb
    · intro cand h2
      rw [tryOffsets] at h2
      cases h2
  | cons o rest ih =>
    intro best hb
    have hcand : sizeOk canvas B (zoneAdjust M
        (clampRect ⟨rect.x + o.1, rect.y + o.2, size⟩ canvas) zones canvas se) :=
      zoneAdjust_sizeOk h48 hB (sizeOk_clampRect h48 hB)
    constructor
    · intro b2 h2
      rw [tryOffsets] at h2
      split at h2
      · cases h2
      · split at h2
        · exact (ih _ hcand).1 b2 h2
        · exact (ih _ hb).1 b2 h2
    · intro cand h2
      rw [tryOffsets] at h2
      split at h2
      · cases h2
        exact hcand
      · split at h2
        · exact (ih _ hcand).2 cand h2
        · exact (ih _ hb).2 cand h2

theorem shrinkRounds_sizeOk {M : JsMath} {rect : SRect} {existing : List SRect}
    {zones : List Rect} {canvas : Canvas} {se : Bool} {seed : String} {B : ℚ} (h56B : 56 ≤ B) :
    ∀ (rounds : List ℕ) (size : ℚ) (best : SRect × Option ℚ), 48 ≤ size → size ≤ B →
      sizeOk canvas B best.1 →
      sizeOk canvas B (shrinkRounds M rect existing zones canvas se seed rounds size best) := by
  intro rounds
  induction rounds with
  | nil =>
    intro size best _ _ hb
    exact findLowOverlapPlacement_sizeOk hb
  | cons shrink rest ih =>
    intro size best h48 hB hb
    rw [shrinkRounds]
    split
    · rename_i cand heq
      exact (tryOffsets_sizeOk h48 hB _ _ hb).2 cand heq
    · rename_i b2 heq
      refine ih _ _ (le_trans (by norm_num) (le_max_left 56 _)) ?_
        ((tryOffsets_sizeOk h48 hB _ _ hb).1 b2 heq)
      exact max_le h56B (by linarith)

theorem resolveOverlaps_sizeOk {M : JsMath} {rect : SRect} {existing : List SRect}
    {zones : List Rect} {canvas : Canvas} {seed : String} {se : Bool} {B : ℚ}
    (h56B : 56 ≤ B) (h : sizeOk canvas B rect) :
    sizeOk canvas B (resolveOverlaps M rect existing zones canvas seed se) := by
  unfold resolveOverlaps
  split
  · exact h
  · exact shrinkRounds_sizeOk h56B _ _ _ h.1 h.2.1 h

theorem desiredSizeOf_bounds (base scale minSticker maxSticker pm : ℚ) :
    48 ≤ desiredSizeOf base scale minSticker (pocketCapacityOf maxSticker pm) ∧
    desiredSizeOf base scale minSticker (pocketCapacityOf maxSticker pm) ≤ max 60 maxSticker := by
  unfold desiredSizeOf pocketCapacityOf clamp
  set pc := max 60 (min maxSticker (pm * (21/20))) with hpc
  have hpc60 : (60:ℚ) ≤ pc := le_max_left _ _
  have hlo : max 52 (min minSticker pc * (19/20)) ≤ pc := by
    refine max_le (by linarith) ?_
    have h1 : min minSticker pc * (19/20) ≤ pc * (19/20) :=
      mul_le_mul_of_nonneg_right (min_le_right _ _) (by norm_num)
    linarith
  constructor
  · calc (48:ℚ) ≤ 52 := by norm_num
      _ ≤ max 52 (min minSticker pc * (19/20)) := le_max_left _ _
      _ = min (max 52 (min minSticker pc * (19/20))) pc := (min_eq_left hlo).symm
      _ ≤ min (max (base * scale) (max 52 (min minSticker pc * (19/20)))) pc :=
        min_le_min (le_max_right _ _) (le_refl _)
  · calc min (max (base * scale) (max 52 (min minSticker pc * (19/20)))) pc ≤ pc :=
        min_le_right _ _
      _ ≤ max 60 maxSticker := max_le_max (le_refl _) (min_le_left _ _)

theorem maxSticker_fits {c : Canvas} (h : 60 ≤ min c.width c.height) :
    max 60 (maxStickerSize c) ≤ c.width ∧ max 60 (maxStickerSize c) ≤ c.height := by
  have hs : maxStickerSize c ≤ min c.width c.height := by
    unfold maxStickerSize jsRound
    have hfl : ((⌊min c.width c.height * (7/25) + 1/2⌋ : ℤ) : ℚ) ≤
        min c.width c.height * (7/25) + 1/2 := Int.floor_le _
    refine le_trans (min_le_right _ _) ?_
    linarith
  have h1 : min c.width c.height ≤ c.width := min_le_left _ _
  have h2 : min c.width c.height ≤ c.height := min_le_right _ _
  exact ⟨max_le (by linarith) (by linarith), max_le (by linarith) (by linarith)⟩

theorem placed_sizeOk (M : JsMath) (canvas : Canvas) (safeZones : List Rect) (se : Bool)
    (base scale minSticker maxSticker pm x0 y0 : ℚ) (existing : List SRect) (seed : String) :
    sizeOk canvas (max 60 maxSticker)
      (resolveOverlaps M (zoneAdjust M (clampRect
        ⟨x0, y0, desiredSizeOf base scale minSticker (pocketCapacityOf maxSticker pm)⟩ canvas)
        safeZones canvas se) existing safeZones canvas seed se) := by
  obtain ⟨h48, hB⟩ := desiredSizeOf_bounds base scale minSticker maxSticker pm
  exact resolveOverlaps_sizeOk (le_trans (by norm_num) (le_max_left _ _))
    (zoneAdjust_sizeOk h48 hB (sizeOk_clampRect h48 hB))

theorem layoutStep_spec (M : JsMath) (canvas : Canvas) (safeZones : List Rect) (se re : Bool)
    (base minSticker maxSticker : ℚ) (st : LayoutState) (id : String) (index : ℕ) :
    48 ≤ (layoutStep M canvas safeZones se re base minSticker maxSticker st id index).1.size ∧
    (layoutStep M canvas safeZones se re base minSticker maxSticker st id index).1.size ≤
      max 60 maxSticker ∧
    (max 60 maxSticker ≤ canvas.width → max 60 maxSticker ≤ canvas.height →
      0 ≤ (layoutStep M canvas safeZones se re base minSticker maxSticker st id index).1.x ∧
      0 ≤ (layoutStep M canvas safeZones se re base minSticker maxSticker st id index).1.y ∧
      (layoutStep M canvas safeZones se re base minSticker maxSticker st id index).1.x +
        (layoutStep M canvas safeZones se re base minSticker maxSticker st id index).1.size ≤
          canvas.width ∧
      (layoutStep M canvas safeZones se re base minSticker maxSticker st id index).1.y +
        (layoutStep M canvas safeZones se re base minSticker maxSticker st id index).1.size ≤
          canvas.height) := by
  simp only [layoutStep]
  refine ⟨(placed_sizeOk M canvas safeZones se base _ minSticker maxSticker _ _ _
      st.placements _).1,
    (placed_sizeOk M canvas safeZones se base _ minSticker maxSticker _ _ _
      st.placements _).2.1, ?_⟩
  intro hw hh
  exact (placed_sizeOk M canvas safeZones se base _ minSticker maxSticker _ _ _
    st.placements _).2.2 hw hh

theorem layoutItems_spec (M : JsMath) (canvas : Canvas) (safeZones : List Rect) (se re : Bool)
    (base minSticker maxSticker : ℚ) :
    ∀ (ids : List String) (st : LayoutState) (index : ℕ),
      ∀ raw ∈ layoutItems M canvas safeZones se re base minSticker maxSticker st index ids,
        48 ≤ raw.size ∧ raw.size ≤ max 60 maxSticker ∧
        (max 60 maxSticker ≤ canvas.width → max 60 maxSticker ≤ canvas.height →
          0 ≤ raw.x ∧ 0 ≤ raw.y ∧ raw.x + raw.size ≤ canvas.width ∧
          raw.y + raw.size ≤ canvas.height) := by
  intro ids
  induction ids with
  | nil =>
    intro st index raw h
    rw [layoutItems] at h
    cases h
  | cons id rest ih =>
    intro st index raw h
    rw [layoutItems] at h
    rcases List.mem_cons.mp h with heq | hmem
    · subst heq
      exact layoutStep_spec M canvas safeZones se re base minSticker maxSticker st id index
    · exact ih _ _ raw hmem

theorem layoutItems_idx (M : JsMath) (canvas : Canvas) (safeZones : List Rect) (se re : Bool)
    (base minSticker maxSticker : ℚ) :
    ∀ (ids : List String) (st : LayoutState) (index : ℕ),
      (layoutItems M canvas safeZones se re base minSticker maxSticker st index ids).map
        (fun r => r.idx) = List.range' index ids.length := by
  intro ids
  induction ids with
  | nil => intro st index; rfl
  | cons id rest ih =>
    intro st index
    rw [layoutItems]
    simp only [List.map_cons, List.length_cons, List.range'_succ]
    refine congrArg₂ List.cons ?_ (ih _ _)
    rfl

theorem mem_assignZ {l : List RawItem} {p : OutItem} (h : p ∈ assignZ l) :
    ∃ it ∈ l, p.id = it.id ∧ p.idx = it.idx ∧ p.x = it.x ∧ p.y = it.y ∧
      p.size = it.size ∧ p.rotation = it.rotation ∧ p.zIndex = zIndexOf l it := by
  unfold assignZ at h
  obtain ⟨it, hit, heq⟩ := List.mem_map.mp h
  subst heq
  exact ⟨it, hit, rfl, rfl, rfl, rfl, rfl, rfl, rfl⟩

theorem layoutRun_spec (M : JsMath) (canvas : Canvas) (zones : List Rect) (ids : List String)
    (se re : Bool) :
    ∀ p ∈ layoutRun M canvas zones ids se re,
      48 ≤ p.size ∧ p.size ≤ max 60 (maxStickerSize canvas) ∧
      (60 ≤ min canvas.width canvas.height →
        0 ≤ p.x ∧ 0 ≤ p.y ∧ p.x + p.size ≤ canvas.width ∧ p.y + p.size ≤ canvas.height) := by
  intro p hp
  simp only [layoutRun] at hp
  obtain ⟨it, hit, _, _, hx, hy, hsize, _, _⟩ := mem_assignZ hp
  have hs := layoutItems_spec M canvas zones se re _ _ (maxStickerSize canvas) _ _ _ it hit
  rw [hx, hy, hsize]
  refine ⟨hs.1, hs.2.1, ?_⟩
  intro h60
  obtain ⟨hw, hh⟩ := maxSticker_fits h60
  exact hs.2.2 hw hh

theorem layoutRun_nodupRaw (M : JsMath) (canvas : Canvas) (safeZones : List Rect) (se re : Bool)
    (base minSticker maxSticker : ℚ) (ids : List String) (st : LayoutState) (index : ℕ) :
    (layoutItems M canvas safeZones se re base minSticker maxSticker st index ids).Nodup := by
  have hidx := layoutItems_idx M canvas safeZones se re base minSticker maxSticker ids st index
  have hmap : ((layoutItems M canvas safeZones se re base minSticker maxSticker st index
      ids).map (fun r => r.idx)).Nodup := by
    rw [hidx]
    exact List.nodup_range' index ids.length
  exact hmap.of_map

theorem zIndexOf_lt {l : List RawItem} (hnd : l.Nodup) {a b : RawItem} (ha : a ∈ l) (hb : b ∈ l)
    (hab : a.size < b.size) : zIndexOf l a < zIndexOf l b := by
  haveI hTot : IsTotal RawItem (fun a b : RawItem => a.size ≤ b.size) :=
    ⟨fun a b => le_total a.size b.size⟩
  haveI hTrans : IsTrans RawItem (fun a b : RawItem => a.size ≤ b.size) :=
    ⟨fun a b c h1 h2 => le_trans h1 h2⟩
  unfold zIndexOf sortedBySize
  have hperm := List.perm_insertionSort (fun a b : RawItem => a.size ≤ b.size) l
  have hsort := List.sorted_insertionSort (fun a b : RawItem => a.size ≤ b.size) l
  have hnd2 : (List.insertionSort (fun a b : RawItem => a.size ≤ b.size) l).Nodup :=
    hperm.nodup_iff.mpr hnd
  have ha2 : a ∈ List.insertionSort (fun a b : RawItem => a.size ≤ b.size) l :=
    hperm.mem_iff.mpr ha
  have hb2 : b ∈ List.insertionSort (fun a b : RawItem => a.size ≤ b.size) l :=
    hperm.mem_iff.mpr hb
  have hi : List.indexOf a (List.insertionSort (fun a b : RawItem => a.size ≤ b.size) l) <
      (List.insertionSort (fun a b : RawItem => a.size ≤ b.size) l).length :=
    List.indexOf_lt_length.mpr ha2
  have hj : List.indexOf b (List.insertionSort (fun a b : RawItem => a.size ≤ b.size) l) <
      (List.insertionSort (fun a b : RawItem => a.size ≤ b.size) l).length :=
    List.indexOf_lt_length.mpr hb2
  have hga := List.indexOf_get hi
  have hgb := List.indexOf_get hj
  rcases lt_trichotomy
    (List.indexOf a (List.insertionSort (fun a b : RawItem => a.size ≤ b.size) l))
    (List.indexOf b (List.insertionSort (fun a b : RawItem => a.size ≤ b.size) l)) with
    h | h | h
  · omega
  · exfalso
    have hab2 : a = b := by
      rw [← hga, ← hgb]
      congr 1
      exact Fin.ext h
    rw [hab2] at hab
    exact absurd hab (lt_irrefl _)
  · exfalso
    have hrel := hsort.rel_get_of_lt (a := ⟨_, hj⟩) (b := ⟨_, hi⟩) h
    rw [hga, hgb] at hrel
    have : ¬ a.size < b.size := not_lt.mpr hrel
    exact this hab

/-- Claim C2 (amended): for every canvas whose shortest side is at least
60 pixels, every placement of the layout lies fully within the canvas. -/
theorem C2_containment (M : JsMath) (canvas : Canvas) (zones : List Rect) (ids : List String)
    (se re : Bool) (h60 : 60 ≤ min canvas.width canvas.height) :
    ∀ p ∈ layoutRun M canvas zones ids se re,
      0 ≤ p.x ∧ 0 ≤ p.y ∧ p.x + p.size ≤ canvas.width ∧ p.y + p.size ≤ canvas.height := by
  intro p hp
  exact (layoutRun_spec M canvas zones ids se re p hp).2.2 h60

set_option maxRecDepth 40000 in
unseal Rat.add Rat.mul Rat.inv Rat.sub in
/-- Witness for C2: on a 60 by 60 canvas with one item the single
placement (3, 3, size 57) is contained in the canvas. -/
theorem C2_containment_witness :
    0 ≤ (3:ℚ) ∧ 0 ≤ (3:ℚ) ∧ (3:ℚ) + 57 ≤ 60 ∧ (3:ℚ) + 57 ≤ 60 := by
  have h : layoutRun zeroMath ⟨60, 60⟩ [] ["a"] false false =
      [⟨"a", 0, 3, 3, 57, 0, 200⟩] := by decide
  exact C2_containment zeroMath ⟨60, 60⟩ [] ["a"] false false (by norm_num)
    ⟨"a", 0, 3, 3, 57, 0, 200⟩ (by rw [h]; exact List.mem_singleton_self _)

set_option maxRecDepth 40000 in
unseal Rat.add Rat.mul Rat.inv Rat.sub in
/-- Counterexample to C2 as stated: on a 50 by 50 canvas the computed
size 57 exceeds the canvas, and clamping yields x = y = -7 < 0. -/
theorem C2_breaks_on_small_canvas :
    (layoutRun zeroMath ⟨50, 50⟩ [] ["a"] false false).map (fun p => (p.x, p.y, p.size)) =
      [(-7, -7, 57)] ∧ ¬ (0 ≤ (-7:ℚ)) := by decide

set_option maxRecDepth 40000 in
unseal Rat.add Rat.mul Rat.inv Rat.sub in
/-- Claim C4 (amended): every placement size lies in the interval from 48
to max(60, maxStickerSize); the claimed interval [minStickerSize,
maxStickerSize] does not hold on small canvases. -/
theorem C4_size_bounds (M : JsMath) (canvas : Canvas) (zones : List Rect) (ids : List String)
    (se re : Bool) :
    ∀ p ∈ layoutRun M canvas zones ids se re,
      48 ≤ p.size ∧ p.size ≤ max 60 (maxStickerSize canvas) := by
  intro p hp
  exact ⟨(layoutRun_spec M canvas zones ids se re p hp).1,
    (layoutRun_spec M canvas zones ids se re p hp).2.1⟩

set_option maxRecDepth 40000 in
unseal Rat.add Rat.mul Rat.inv Rat.sub in
/-- Witness for C4: the concrete 60 by 60 run yields size 57, inside the
amended interval. -/
theorem C4_size_bounds_witness :
    48 ≤ (57:ℚ) ∧ (57:ℚ) ≤ max 60 (maxStickerSize ⟨60, 60⟩) := by
  have h : layoutRun zeroMath ⟨60, 60⟩ [] ["a"] false false =
      [⟨"a", 0, 3, 3, 57, 0, 200⟩] := by decide
  exact C4_size_bounds zeroMath ⟨60, 60⟩ [] ["a"] false false
    ⟨"a", 0, 3, 3, 57, 0, 200⟩ (by rw [h]; exact List.mem_singleton_self _)

set_option maxRecDepth 40000 in
unseal Rat.add Rat.mul Rat.inv Rat.sub in
/-- Counterexample to C4 as stated: on a 50 by 50 canvas the bounds are
[68, 14] and the produced size 57 lies in neither. -/
theorem C4_breaks_on_small_canvas :
    (layoutRun zeroMath ⟨50, 50⟩ [] ["a"] false false).map (fun p => p.size) = [57] ∧
    minStickerSize ⟨50, 50⟩ = 68 ∧ maxStickerSize ⟨50, 50⟩ = 14 ∧
    ¬ (minStickerSize ⟨50, 50⟩ ≤ 57 ∧ (57:ℚ) ≤ maxStickerSize ⟨50, 50⟩) := by decide

set_option maxRecDepth 40000 in
unseal Rat.add Rat.mul Rat.inv Rat.sub in
/-- Claim C10: every placement size stays at or above the 48-pixel floor,
for every canvas, safe-zone list and item list. -/
theorem C10_size_floor (M : JsMath) (canvas : Canvas) (zones : List Rect) (ids : List String)
    (se re : Bool) :
    ∀ p ∈ layoutRun M canvas zones ids se re, 48 ≤ p.size := by
  intro p hp
  exact (layoutRun_spec M canvas zones ids se re p hp).1

set_option maxRecDepth 40000 in
unseal Rat.add Rat.mul Rat.inv Rat.sub in
/-- Witness for C10: the 50 by 50 run produces size 57, at least 48. -/
theorem C10_size_floor_witness : 48 ≤ (57:ℚ) := by
  have h : layoutRun zeroMath ⟨50, 50⟩ [] ["a"] false false =
      [⟨"a", 0, -7, -7, 57, 0, 200⟩] := by decide
  exact C10_size_floor zeroMath ⟨50, 50⟩ [] ["a"] false false
    ⟨"a", 0, -7, -7, 57, 0, 200⟩ (by rw [h]; exact List.mem_singleton_self _)

set_option maxRecDepth 40000 in
unseal Rat.add Rat.mul Rat.inv Rat.sub in
/-- Claim C3 (amended): after the z-order pass, the item with the larger
final size receives the strictly larger zIndex (larger items draw in
front, not behind). -/
theorem C3_zorder (M : JsMath) (canvas : Canvas) (zones : List Rect) (ids : List String)
    (se re : Bool) :
    ∀ p q, p ∈ layoutRun M canvas zones ids se re → q ∈ layoutRun M canvas zones ids se re →
      p.size < q.size → p.zIndex < q.zIndex := by
  intro p q hp hq hlt
  simp only [layoutRun] at hp hq
  obtain ⟨it, hit, _h1, _h2, _h3, _h4, hsp, _h5, hzp⟩ := mem_assignZ hp
  obtain ⟨jt, hjt, _g1, _g2, _g3, _g4, hsq, _g5, hzq⟩ := mem_assignZ hq
  rw [hzp, hzq]
  refine zIndexOf_lt (layoutRun_nodupRaw M canvas zones se re _ _ _ _ _ _) hit hjt ?_
  rw [← hsp, ← hsq]
  exact hlt

set_option maxRecDepth 40000 in
unseal Rat.add Rat.mul Rat.inv Rat.sub in
/-- Witness for C3: in the concrete two-item run the size-56 item gets
zIndex 200 and the size-57 item zIndex 201. -/
theorem C3_zorder_witness :
    (⟨"b", 1, 0, 0, 56, 0, 200⟩ : OutItem).zIndex < (⟨"a", 0, 3, 3, 57, 0, 201⟩ : OutItem).zIndex := by
  have h : layoutRun zeroMath ⟨60, 60⟩ [] ["a", "b"] false false =
      [⟨"a", 0, 3, 3, 57, 0, 201⟩, ⟨"b", 1, 0, 0, 56, 0, 200⟩] := by decide
  refine C3_zorder zeroMath ⟨60, 60⟩ [] ["a", "b"] false false _ _ ?_ ?_ (by norm_num)
  · rw [h]; exact List.mem_cons_of_mem _ (List.mem_singleton_self _)
  · rw [h]; exact List.mem_cons_self _ _

set_option maxRecDepth 40000 in
unseal Rat.add Rat.mul Rat.inv Rat.sub in
/-- Counterexample to C3 as stated: in the two-item run the smaller item
(size 56) receives the smaller zIndex 200, not the larger one. -/
theorem C3_smaller_behind :
    ((layoutRun zeroMath ⟨60, 60⟩ [] ["a", "b"] false false).map (fun p => (p.size, p.zIndex)) =
      [(57, 201), (56, 200)]) ∧
    ¬ (∀ p ∈ layoutRun zeroMath ⟨60, 60⟩ [] ["a", "b"] false false,
        ∀ q ∈ layoutRun zeroMath ⟨60, 60⟩ [] ["a", "b"] false false,
        p.size < q.size → q.zIndex < p.zIndex) := by decide
